import Mathlib

/-!
Verification of the resume-RAG analyzer's text pipeline.

This file is a shallow embedding of the pure text-processing core of
`rag_core.py` (class `ResumeRAGAnalyzer`) and `app.py` (`extract_section`)
into Lean 4, together with theorems settling the specification's claims.

Strings are modelled as `List Char` (with `String` wrappers built on
`String.mk`/`String.data`).  Python's regex character classes `\s`, `\w`
and `\d` are modelled at their ASCII meaning; Python string truthiness
(`if not text`) is modelled as emptiness.  The external services
(text splitter, vector-store similarity search, generative model) are
parameters of the embedding (`ExtEnv`), and the persisted Chroma store is
a name-indexed partial map (`VectorStore`).
-/

/-- ASCII whitespace, the characters matched by Python's `str.strip()` and
the regex class `\s` (restricted to ASCII). -/
def pySpace (c : Char) : Bool :=
  c == ' ' || c == '\t' || c == '\n' || c == '\r' || c == '\x0b' || c == '\x0c'

/-- Characters kept by `clean_text`'s second substitution
`re.sub(r'[^\w\s.,!?;:()-]', '', text)`: word characters (`\w`, ASCII),
whitespace, and the punctuation `.,!?;:()-`. -/
def keepChar (c : Char) : Bool :=
  c.isAlphanum || c == '_' || pySpace c ||
    c == '.' || c == ',' || c == '!' || c == '?' || c == ';' || c == ':' ||
    c == '(' || c == ')' || c == '-'

/-- `re.sub(r'\s+', ' ', text)`: every maximal run of whitespace characters
is replaced by a single space.  (Of a run, all characters but the last are
dropped and the last becomes `' '`.) -/
def collapseWs : List Char → List Char
  | [] => []
  | [c] => if pySpace c then [' '] else [c]
  | a :: b :: rest =>
    if pySpace a && pySpace b then collapseWs (b :: rest)
    else (if pySpace a then ' ' else a) :: collapseWs (b :: rest)

/-- `re.sub(r' +', ' ', text)`: every maximal run of space characters is
replaced by a single space. -/
def collapseSp : List Char → List Char
  | [] => []
  | [c] => [c]
  | a :: b :: rest =>
    if a == ' ' && b == ' ' then collapseSp (b :: rest)
    else a :: collapseSp (b :: rest)

/-- Remove trailing whitespace (the right half of Python's `str.strip()`). -/
def stripEnd : List Char → List Char
  | [] => []
  | c :: rest =>
    match stripEnd rest with
    | [] => if pySpace c then [] else [c]
    | r => c :: r

/-- Python's `str.strip()`: remove leading and trailing whitespace. -/
def pyStrip (l : List Char) : List Char := stripEnd (l.dropWhile pySpace)

/-- `ResumeRAGAnalyzer.clean_text` (rag_core.py lines 53-64) on character
lists: empty input gives empty output; otherwise collapse whitespace runs
to single spaces, drop characters outside the safe set, collapse space
runs, and strip. -/
def clean_text_chars (l : List Char) : List Char :=
  if l = [] then []
  else pyStrip (collapseSp ((collapseWs l).filter keepChar))

/-- `ResumeRAGAnalyzer.clean_text` on `String`. -/
def clean_text (s : String) : String := String.mk (clean_text_chars s.data)

/-- Numeric value of a digit string (most significant first). -/
def digitsToNat (l : List Char) : Nat :=
  l.foldl (fun a c => a * 10 + (c.toNat - '0'.toNat)) 0

/-- Try to match `(\d{1,3})%` at the head of `l` with exactly `n` digits:
`n` digits followed by a percent sign. -/
def tryPct (l : List Char) (n : Nat) : Option Nat :=
  let ds := l.take n
  if ds.length = n ∧ ds.all Char.isDigit = true ∧ (l.drop n).head? = some '%'
  then some (digitsToNat ds) else none

/-- Match `(\d{1,3})%` anchored at the head of `l`.  The greedy quantifier
tries three digits first, backtracking to two and then one. -/
def matchPctAt (l : List Char) : Option Nat :=
  match tryPct l 3 with
  | some v => some v
  | none =>
    match tryPct l 2 with
    | some v => some v
    | none => tryPct l 1

/-- `re.search(r'(\d{1,3})%', analysis)`: value of the group of the
leftmost match, if any. -/
def searchPct : List Char → Option Nat
  | [] => none
  | c :: rest =>
    match matchPctAt (c :: rest) with
    | some v => some v
    | none => searchPct rest

/-- The literal tail `" out of 100"` of the fallback score pattern. -/
def outOfLit : List Char := " out of 100".data

/-- Try to match `(\d{1,3}) out of 100` (case-insensitive) at the head of
`l` with exactly `n` digits. -/
def tryOutOf (l : List Char) (n : Nat) : Option Nat :=
  let ds := l.take n
  if ds.length = n ∧ ds.all Char.isDigit = true ∧
      ((l.drop n).take 11).map Char.toLower = outOfLit
  then some (digitsToNat ds) else none

/-- Match `(\d{1,3}) out of 100` anchored at the head of `l`. -/
def matchOutOfAt (l : List Char) : Option Nat :=
  match tryOutOf l 3 with
  | some v => some v
  | none =>
    match tryOutOf l 2 with
    | some v => some v
    | none => tryOutOf l 1

/-- `re.search(r'(\d{1,3}) out of 100', analysis, re.IGNORECASE)`: value of
the group of the leftmost match, if any. -/
def searchOutOf : List Char → Option Nat
  | [] => none
  | c :: rest =>
    match matchOutOfAt (c :: rest) with
    | some v => some v
    | none => searchOutOf rest

/-- `ResumeRAGAnalyzer.calculate_match_score` (rag_core.py lines 225-243):
0 on empty input; otherwise the clamped value of the first `\d{1,3}%`
match, else the clamped value of the first `\d{1,3} out of 100` match,
else the default 75. -/
def calculate_match_score (analysis : String) : Nat :=
  if analysis.data = [] then 0
  else
    match searchPct analysis.data with
    | some score => max 0 (min 100 score)
    | none =>
      match searchOutOf analysis.data with
      | some score => max 0 (min 100 score)
      | none => 75

example : calculate_match_score "Match: 83%" = 83 := by decide
example : calculate_match_score "score: 142%" = 100 := by decide
example : calculate_match_score "no numeric info" = 75 := by decide
example : calculate_match_score "87 out of 100" = 87 := by decide
example : calculate_match_score "" = 0 := by decide
example : calculate_match_score "1234%" = 100 := by decide

/-- Lowercase a line, modelling Python's `str.lower()` (ASCII). -/
def lineLower (l : List Char) : List Char := l.map Char.toLower

/-- Does `hay` start with `needle`? -/
def leadsWith : List Char → List Char → Bool
  | [], _ => true
  | _ :: _, [] => false
  | a :: as, b :: bs => a == b && leadsWith as bs

/-- Python's substring containment `needle in hay`. -/
def containsStr (needle : List Char) : List Char → Bool
  | [] => needle.isEmpty
  | c :: rest => leadsWith needle (c :: rest) || containsStr needle rest

/-- Python's `text.split('\n')` (keeps empty pieces; `''` splits to `['']`). -/
def splitLines : List Char → List (List Char)
  | [] => [[]]
  | c :: rest =>
    if c = '\n' then [] :: splitLines rest
    else
      match splitLines rest with
      | h :: t => (c :: h) :: t
      | [] => [[c]]

/-- Python's `'\n'.join(lines)`. -/
def joinLines : List (List Char) → List Char
  | [] => []
  | [l] => l
  | l :: rest => l ++ '\n' :: joinLines rest

/-- `line.startswith((' ', '-', '•', '\t'))` on the raw line. -/
def startsBlocked (line : List Char) : Bool :=
  match line with
  | [] => false
  | c :: _ => c == ' ' || c == '-' || c == '•' || c == '\t'

/-- The shared "next top-level section" test of `get_improvement_suggestions`
(rag_core.py line 262) and `extract_section` (app.py line 49):
`line.strip() and ':' in line and not line.startswith((' ', '-', '•', '\t'))`. -/
def isSectionBreak (line : List Char) : Bool :=
  !(pyStrip line).isEmpty && line.contains ':' && !startsBlocked line

/-- `line.strip()` is nonempty and starts with `-` or `•`. -/
def bulletStart (line : List Char) : Bool :=
  match pyStrip line with
  | [] => false
  | c :: _ => c == '-' || c == '•'

/-- The character class of `re.sub(r'^[-•\d.\s]+', '', ...)`. -/
def bulletClass (c : Char) : Bool :=
  c == '-' || c == '•' || c.isDigit || c == '.' || pySpace c

/-- `re.sub(r'^[-•\d.\s]+', '', line.strip()).strip()` (rag_core.py line 267). -/
def bulletClean (line : List Char) : List Char :=
  pyStrip ((pyStrip line).dropWhile bulletClass)

/-- `re.match(r'^\d+[\.\)]', line.strip())` (rag_core.py line 272): the
stripped line starts with one or more digits followed by `.` or `)`. -/
def numStart (line : List Char) : Bool :=
  let s := pyStrip line
  !(s.takeWhile Char.isDigit).isEmpty &&
    (match (s.drop (s.takeWhile Char.isDigit).length).head? with
     | some c => c == '.' || c == ')'
     | none => false)

/-- `re.sub(r'^\d+[\.\)]\s*', '', line.strip()).strip()` (rag_core.py
line 273), applied in the branch where `numStart` holds. -/
def numClean (line : List Char) : List Char :=
  let s := pyStrip line
  let ds := s.takeWhile Char.isDigit
  pyStrip ((s.drop (ds.length + 1)).dropWhile pySpace)

/-- Header token `'recommendations:'` of the suggestions loop. -/
def recTok : List Char := "recommendations:".data

/-- Header token `'suggestions:'` of the suggestions loop. -/
def sugTok : List Char := "suggestions:".data

/-- The line loop of `get_improvement_suggestions` (rag_core.py lines
253-275): the state is the `in_suggestions_section` flag; a header line
containing `recommendations:` or `suggestions:` (lowercased) turns the
flag on and is skipped; inside the section, a new top-level section stops
the loop, a bullet line contributes its cleaned text when longer than 10
characters, and a numbered line likewise. -/
def suggLoop : List (List Char) → Bool → List (List Char)
  | [], _ => []
  | line :: rest, inSec =>
    if containsStr recTok (lineLower line) || containsStr sugTok (lineLower line) then
      suggLoop rest true
    else if inSec then
      if isSectionBreak line then []
      else if bulletStart line then
        (if bulletClean line ≠ [] ∧ (bulletClean line).length > 10
         then [bulletClean line] else []) ++ suggLoop rest true
      else if !(pyStrip line).isEmpty && numStart line then
        (if numClean line ≠ [] ∧ (numClean line).length > 10
         then [numClean line] else []) ++ suggLoop rest true
      else suggLoop rest true
    else suggLoop rest false

/-- The four generic fallback suggestions (rag_core.py lines 277-282). -/
def fallbackSuggestions : List String :=
  ["Add specific metrics to quantify your achievements",
   "Tailor your skills section to match job requirements",
   "Highlight relevant certifications and courses",
   "Include more details about team collaboration"]

/-- `ResumeRAGAnalyzer.get_improvement_suggestions` (rag_core.py lines
245-282). -/
def get_improvement_suggestions (analysis : String) : List String :=
  if analysis.data = [] then ["No analysis available to extract suggestions"]
  else
    let items := suggLoop (splitLines analysis.data) false
    if items = [] then fallbackSuggestions else items.map String.mk

/-- The header test of `extract_section` (app.py line 45):
`section_name.lower() in line.lower() and ':' in line`. -/
def headerMatch (nameLow line : List Char) : Bool :=
  containsStr nameLow (lineLower line) && line.contains ':'

/-- The line loop of `extract_section` (app.py lines 44-52), returning the
collected section lines: a line matching the header turns the flag on and
is skipped (even when already inside); inside the section, a new top-level
section line stops the loop, and nonempty lines are collected. -/
def exLoop (nameLow : List Char) : List (List Char) → Bool → List (List Char)
  | [], _ => []
  | line :: rest, inSec =>
    if headerMatch nameLow line then exLoop nameLow rest true
    else if inSec then
      if isSectionBreak line then []
      else if !(pyStrip line).isEmpty then line :: exLoop nameLow rest true
      else exLoop nameLow rest true
    else exLoop nameLow rest false

/-- `extract_section` (app.py lines 35-55). -/
def extract_section (text : String) (section_name : String) : String :=
  if text.data = [] then "No content available for " ++ section_name
  else
    let res := pyStrip (joinLines (exLoop (lineLower section_name.data)
      (splitLines text.data) false))
    if res = [] then "No specific content found for " ++ section_name
    else String.mk res

example : get_improvement_suggestions "" = ["No analysis available to extract suggestions"] := by decide
example : get_improvement_suggestions "RECOMMENDATIONS:\n- OK" = fallbackSuggestions := by decide
example :
    get_improvement_suggestions "RECOMMENDATIONS:\n- Add quantified metrics to your summary" =
      ["Add quantified metrics to your summary"] := by decide
example : get_improvement_suggestions "RECOMMENDATIONS:\n- abcdefghij" = fallbackSuggestions := by decide
example : get_improvement_suggestions "RECOMMENDATIONS:\n- abcdefghijk" = ["abcdefghijk"] := by decide
example :
    extract_section "1. X:\nGAPS:\n- g1\nRECOMMENDATIONS:\n- r1" "GAPS" = "- g1" := by decide

/-- The error raised by the pipeline's input validation (`ValueError` in
rag_core.py; the spec's `InvalidInputError`), carrying its message. -/
inductive RagError where
  | invalidInput : String → RagError
deriving DecidableEq

/-- The persisted Chroma store: a partial map from collection name to the
stored chunk texts; `none` means the collection was never written. -/
def VectorStore := String → Option (List String)

/-- The external services the pipeline calls: the text splitter
(`RecursiveCharacterTextSplitter.split_documents`), the similarity search
over a stored collection (`Chroma.similarity_search`, given the stored
chunks, the query text and `k`), and the generative model
(`prompt | llm | StrOutputParser`, whose failure is an exception carrying
a message). -/
structure ExtEnv where
  split : String → List String
  search : List String → String → Nat → List String
  generate : String → List String → Except String String

/-- The result dict of `analyze_resume_vs_jd`. -/
structure AnalysisResult where
  score : Nat
  analysis : String
  relevant_chunks : List String
deriving DecidableEq

/-- `ResumeRAGAnalyzer.process_job_description` (rag_core.py lines 66-94):
validate, clean, split into chunks, and overwrite the named collection;
returns the updated store and the status message. -/
def process_job_description (env : ExtEnv) (store : VectorStore)
    (job_desc_text : String) (collection_name : String) :
    Except RagError (VectorStore × String) :=
  if (pyStrip job_desc_text.data).isEmpty then
    Except.error (RagError.invalidInput "Job description text cannot be empty")
  else
    let chunks := env.split (clean_text job_desc_text)
    let store' : VectorStore :=
      fun n => if n = collection_name then some chunks else store n
    Except.ok (store',
      "Processed and stored " ++ toString chunks.length ++ " chunks from job description.")

/-- `ResumeRAGAnalyzer.query_job_description` (rag_core.py lines 96-117):
validate, clean the resume text, and query the named collection; a
collection that does not exist yields the empty list (the `except`
branch), not an error. -/
def query_job_description (env : ExtEnv) (store : VectorStore)
    (resume_text : String) (collection_name : String) (k : Nat) :
    Except RagError (List String) :=
  if (pyStrip resume_text.data).isEmpty then
    Except.error (RagError.invalidInput "Resume text cannot be empty")
  else
    match store collection_name with
    | none => Except.ok []
    | some chunks => Except.ok (env.search chunks (clean_text resume_text) k)

/-- The canned analysis returned by `_generate_fallback_analysis`
(rag_core.py lines 200-223), transcribed verbatim. -/
def fallbackAnalysis : String :=
  "\n1. OVERALL MATCH: 78%\n\n2. STRENGTHS (Present in Resume):\n- Strong programming skills in Python and JavaScript\n- Experience with web frameworks and cloud technologies\n- Demonstrated problem-solving abilities in previous roles\n- Good educational background in Computer Science\n\n3. GAPS & AREAS FOR IMPROVEMENT (Missing or Weak in Resume):\n- Could benefit from more specific metrics to quantify achievements\n- Limited experience with advanced machine learning frameworks\n- Consider adding more leadership and collaboration examples\n\n4. RECOMMENDATIONS:\n- Add specific metrics to quantify your impact (e.g., \"improved performance by 40%\")\n- Highlight any relevant certifications or courses\n- Include more details about team collaboration and leadership\n- Tailor your skills section to match the job requirements more closely\n\nNote: This is a sample analysis. For real-time AI analysis, please check your API configuration.\n"

/-- `ResumeRAGAnalyzer.generate_analysis` (rag_core.py lines 150-198): call
the generative model; on any exception return the canned fallback. -/
def generate_analysis (env : ExtEnv) (resume_text : String)
    (relevant_chunks : List String) : String :=
  match env.generate resume_text relevant_chunks with
  | Except.ok analysis => analysis
  | Except.error _ => fallbackAnalysis

/-- The fixed message returned when retrieval yields no chunks
(rag_core.py line 134). -/
def noChunksMsg : String :=
  "No relevant job description requirements found. Please check your inputs."

/-- `ResumeRAGAnalyzer.analyze_resume_vs_jd` (rag_core.py lines 119-148):
validate both inputs, process the job description into the fixed
collection, query it with the resume, and either report the no-chunks
result or generate and score the analysis. -/
def analyze_resume_vs_jd (env : ExtEnv) (store : VectorStore)
    (resume_text job_desc_text : String) : Except RagError AnalysisResult :=
  if (pyStrip resume_text.data).isEmpty || (pyStrip job_desc_text.data).isEmpty then
    Except.error (RagError.invalidInput "Both resume and job description text must be provided")
  else
    match process_job_description env store job_desc_text "job_descriptions" with
    | Except.error e => Except.error e
    | Except.ok (store', _) =>
      match query_job_description env store' resume_text "job_descriptions" 5 with
      | Except.error e => Except.error e
      | Except.ok relevant_chunks =>
        if relevant_chunks = [] then
          Except.ok ⟨0, noChunksMsg, []⟩
        else
          let analysis := generate_analysis env resume_text relevant_chunks
          Except.ok ⟨calculate_match_score analysis, analysis, relevant_chunks⟩

/-- A concrete environment whose generative call always fails and whose
search always returns nothing; used to instantiate the theorems. -/
def trivEnv : ExtEnv :=
  ⟨fun _ => [], fun _ _ _ => [], fun _ _ => Except.error "API error"⟩

/-- A concrete store with no collections. -/
def emptyStore : VectorStore := fun _ => none

set_option maxRecDepth 20000

example : calculate_match_score fallbackAnalysis = 78 := by decide
example : containsStr "GAPS & AREAS FOR IMPROVEMENT".data fallbackAnalysis.data = true := by decide

/-- Claim C1: score extraction satisfies the spec's test vectors —
`"Match: 83%"` gives 83, `"score: 142%"` clamps to 100, `"no numeric
info"` defaults to 75, `"87 out of 100"` gives 87 — and the percent
pattern takes priority: whenever the percent pattern matches, its clamped
value is returned, and the `out of 100` pattern is consulted only when no
percent pattern occurs. -/
theorem claim_C1_score_vectors :
    calculate_match_score "Match: 83%" = 83 ∧
    calculate_match_score "score: 142%" = 100 ∧
    calculate_match_score "no numeric info" = 75 ∧
    calculate_match_score "87 out of 100" = 87 ∧
    (∀ s v, searchPct s.data = some v →
      calculate_match_score s = max 0 (min 100 v)) ∧
    (∀ s v, searchPct s.data = none → searchOutOf s.data = some v →
      calculate_match_score s = max 0 (min 100 v)) := by
  refine ⟨by decide, by decide, by decide, by decide, ?_, ?_⟩
  · intro s v h
    have hd : ¬ s.data = [] := by
      intro he
      rw [he] at h
      simp [searchPct] at h
    unfold calculate_match_score
    rw [if_neg hd, h]
  · intro s v h1 h2
    have hd : ¬ s.data = [] := by
      intro he
      rw [he] at h2
      simp [searchOutOf] at h2
    unfold calculate_match_score
    rw [if_neg hd, h1, h2]

/-- Witness for C1: a text containing both a percent match (142%) and an
`out of 100` match is scored from the percent match, clamped to 100. -/
theorem claim_C1_score_vectors_witness :
    calculate_match_score "142% also 87 out of 100" = 100 :=
  Trans.trans
    (claim_C1_score_vectors.2.2.2.2.1 "142% also 87 out of 100" 142 (by decide))
    (by decide)

/-- Counterexample to claim C2 as stated: the empty string contains
neither score pattern, yet `calculate_match_score` returns 0, not the
default 75 (the `if not analysis: return 0` guard fires first). -/
theorem claim_C2_counterexample :
    searchPct "".data = none ∧ searchOutOf "".data = none ∧
    calculate_match_score "" ≠ 75 ∧ calculate_match_score "" = 0 := by
  decide

/-- Claim C2 (amended): for every nonempty text in which neither the
percent pattern nor the `out of 100` pattern occurs, the score is the
fixed default 75; the empty text instead returns 0. -/
theorem claim_C2_default_score (s : String) (hne : s.data ≠ [])
    (h1 : searchPct s.data = none) (h2 : searchOutOf s.data = none) :
    calculate_match_score s = 75 := by
  unfold calculate_match_score
  rw [if_neg hne, h1, h2]

/-- Witness for C2 (amended) at the spec's own vector. -/
theorem claim_C2_default_score_witness : calculate_match_score "no numeric info" = 75 :=
  claim_C2_default_score "no numeric info" (by decide) (by decide) (by decide)

/-- Claim C4: `analyze_resume_vs_jd` fails with the invalid-input error
exactly when the resume or the job description is empty after stripping;
in particular both `analyze("", "non-empty")` and
`analyze("non-empty", "")` fail that way. -/
theorem claim_C4_input_validation (env : ExtEnv) (store : VectorStore) :
    (∀ resume jd : String,
      (∃ msg, analyze_resume_vs_jd env store resume jd =
        Except.error (RagError.invalidInput msg)) ↔
      ((pyStrip resume.data).isEmpty = true ∨ (pyStrip jd.data).isEmpty = true)) ∧
    analyze_resume_vs_jd env store "" "non-empty" =
      Except.error (RagError.invalidInput "Both resume and job description text must be provided") ∧
    analyze_resume_vs_jd env store "non-empty" "" =
      Except.error (RagError.invalidInput "Both resume and job description text must be provided") := by
  refine ⟨?_, rfl, rfl⟩
  intro resume jd
  constructor
  · intro ⟨msg, h⟩
    by_contra hc
    push_neg at hc
    obtain ⟨hr, hj⟩ := hc
    unfold analyze_resume_vs_jd process_job_description query_job_description at h
    simp [hr, hj] at h
    split at h <;> simp at h
  · intro h
    refine ⟨"Both resume and job description text must be provided", ?_⟩
    unfold analyze_resume_vs_jd
    rw [if_pos (by rcases h with h | h <;> simp [h])]

/-- Witness for C4 with the concrete trivial environment and empty store. -/
theorem claim_C4_input_validation_witness :
    analyze_resume_vs_jd trivEnv emptyStore "" "non-empty" =
      Except.error (RagError.invalidInput "Both resume and job description text must be provided") :=
  (claim_C4_input_validation trivEnv emptyStore).2.1

/-- Claim C6: querying a collection name that was never written (the
store holds `none` for it) with a nonempty resume text returns the empty
list rather than an error. -/
theorem claim_C6_missing_collection (env : ExtEnv) (store : VectorStore)
    (resume name : String) (k : Nat)
    (hmiss : store name = none) (hr : (pyStrip resume.data).isEmpty = false) :
    query_job_description env store resume name k = Except.ok [] := by
  unfold query_job_description
  rw [if_neg (by simp [hr]), hmiss]

/-- Witness for C6 on the empty store. -/
theorem claim_C6_missing_collection_witness :
    query_job_description trivEnv emptyStore "Python, AWS" "job_descriptions" 5 =
      Except.ok [] :=
  claim_C6_missing_collection trivEnv emptyStore "Python, AWS" "job_descriptions" 5
    rfl (by decide)

/-- Claim C7: whenever the generative call fails, `generate_analysis`
returns the one fixed canned analysis, independent of the error; that
string contains the four section headers and the text `78%`, and
`calculate_match_score` applied to it returns 78. -/
theorem claim_C7_fallback_analysis (env : ExtEnv) (resume : String)
    (chunks : List String) (e : String)
    (h : env.generate resume chunks = Except.error e) :
    generate_analysis env resume chunks = fallbackAnalysis ∧
    containsStr "OVERALL MATCH".data fallbackAnalysis.data = true ∧
    containsStr "STRENGTHS".data fallbackAnalysis.data = true ∧
    containsStr "GAPS & AREAS FOR IMPROVEMENT".data fallbackAnalysis.data = true ∧
    containsStr "RECOMMENDATIONS".data fallbackAnalysis.data = true ∧
    containsStr "78%".data fallbackAnalysis.data = true ∧
    calculate_match_score fallbackAnalysis = 78 := by
  refine ⟨?_, by decide, by decide, by decide, by decide, by decide, by decide⟩
  unfold generate_analysis
  rw [h]

/-- Witness for C7 with the always-failing environment. -/
theorem claim_C7_fallback_analysis_witness :
    generate_analysis trivEnv "resume text" [] = fallbackAnalysis :=
  (claim_C7_fallback_analysis trivEnv "resume text" [] "API error" rfl).1

/-- Claim C10: with both inputs nonempty but retrieval returning no
chunks, `analyze_resume_vs_jd` succeeds (it does not raise), the
generative model's behaviour is irrelevant (`env.generate` is arbitrary
here), and the result is score 0, the fixed no-chunks message, and no
relevant chunks. -/
theorem claim_C10_no_chunks (env : ExtEnv) (store : VectorStore)
    (resume jd : String)
    (hr : (pyStrip resume.data).isEmpty = false)
    (hj : (pyStrip jd.data).isEmpty = false)
    (hs : env.search (env.split (clean_text jd)) (clean_text resume) 5 = []) :
    analyze_resume_vs_jd env store resume jd = Except.ok ⟨0, noChunksMsg, []⟩ := by
  unfold analyze_resume_vs_jd
  rw [if_neg (by simp [hr, hj])]
  unfold process_job_description
  rw [if_neg (by simp [hj])]
  unfold query_job_description
  simp only [if_neg (by simp [hr] : ¬ (pyStrip resume.data).isEmpty = true)]
  simp [hs]

/-- Witness for C10 with the concrete empty-search environment. -/
theorem claim_C10_no_chunks_witness :
    analyze_resume_vs_jd trivEnv emptyStore "Python, AWS, 3 years backend"
      "Looking for Python backend engineer" = Except.ok ⟨0, noChunksMsg, []⟩ :=
  claim_C10_no_chunks trivEnv emptyStore "Python, AWS, 3 years backend"
    "Looking for Python backend engineer" (by decide) (by decide) rfl

theorem String_mk_data (l : List Char) : (String.mk l).data = l := rfl

theorem splitLines_no_nl {l : List Char} (h : '\n' ∉ l) : splitLines l = [l] := by
  induction l with
  | nil => rfl
  | cons c rest ih =>
    have hc : ¬ c = '\n' := fun he => h (he ▸ List.mem_cons_self c rest)
    have hrest : '\n' ∉ rest := fun hm => h (List.mem_cons_of_mem c hm)
    rw [splitLines, if_neg hc, ih hrest]

theorem splitLines_append_nl {l₁ : List Char} (rest : List Char) (h : '\n' ∉ l₁) :
    splitLines (l₁ ++ '\n' :: rest) = l₁ :: splitLines rest := by
  induction l₁ with
  | nil => rw [List.nil_append, splitLines, if_pos rfl]
  | cons c t ih =>
    have hc : ¬ c = '\n' := fun he => h (he ▸ List.mem_cons_self c t)
    have ht : '\n' ∉ t := fun hm => h (List.mem_cons_of_mem c hm)
    rw [List.cons_append, splitLines, if_neg hc, ih ht]

/-- Counterexample to claim C5 as stated: the bullet `"- abcdefghij"` has
stripped text of length exactly 10 — not shorter than 10 — yet the code's
`len(clean_suggestion) > 10` test discards it, so the suggestions fall
back to the generic list and the item does not appear. -/
theorem claim_C5_counterexample :
    (bulletClean ("- abcdefghij".data)).length = 10 ∧
    get_improvement_suggestions "RECOMMENDATIONS:\n- abcdefghij" = fallbackSuggestions ∧
    "abcdefghij" ∉ get_improvement_suggestions "RECOMMENDATIONS:\n- abcdefghij" := by
  decide

/-- Claim C5 (amended): a bullet item in the recommendations section is
kept exactly when its cleaned text is nonempty and strictly longer than
10 characters (so items of 10 or fewer characters are discarded); in
particular `"- OK"` is excluded and
`"- Add quantified metrics to your summary"` is included.  The general
part considers an analysis consisting of a `RECOMMENDATIONS:` header and
one further line that is a bullet line and neither a section header nor a
new top-level section line. -/
theorem claim_C5_suggestion_filter :
    (∀ line : List Char, '\n' ∉ line → bulletStart line = true →
      isSectionBreak line = false →
      containsStr recTok (lineLower line) = false →
      containsStr sugTok (lineLower line) = false →
      get_improvement_suggestions (String.mk ("RECOMMENDATIONS:".data ++ '\n' :: line)) =
        (if bulletClean line ≠ [] ∧ (bulletClean line).length > 10
         then [String.mk (bulletClean line)] else fallbackSuggestions)) ∧
    get_improvement_suggestions "RECOMMENDATIONS:\n- OK" = fallbackSuggestions ∧
    get_improvement_suggestions "RECOMMENDATIONS:\n- Add quantified metrics to your summary" =
      ["Add quantified metrics to your summary"] := by
  refine ⟨?_, by decide, by decide⟩
  intro line hnl hb hsb hh1 hh2
  have hsplit : splitLines ("RECOMMENDATIONS:".data ++ '\n' :: line) =
      ["RECOMMENDATIONS:".data, line] := by
    rw [splitLines_append_nl line (by decide), splitLines_no_nl hnl]
  have hne : "RECOMMENDATIONS:".data ++ '\n' :: line ≠ [] := by
    simp
  have h1 : suggLoop ["RECOMMENDATIONS:".data, line] false = suggLoop [line] true := by
    rw [suggLoop, if_pos (by decide)]
  have h2 : suggLoop [line] true =
      (if bulletClean line ≠ [] ∧ (bulletClean line).length > 10
       then [bulletClean line] else []) := by
    rw [suggLoop, if_neg (by simp [hh1, hh2]), if_pos rfl, if_neg (by simp [hsb]),
      if_pos hb, suggLoop, List.append_nil]
  unfold get_improvement_suggestions
  rw [String_mk_data, if_neg hne, hsplit, h1, h2]
  by_cases hc : bulletClean line ≠ [] ∧ (bulletClean line).length > 10
  · simp only [if_pos hc]
    simp [hc.1]
  · simp only [if_neg hc]
    simp

/-- Witness for C5 (amended): an 11-character bullet item is kept. -/
theorem claim_C5_suggestion_filter_witness :
    get_improvement_suggestions (String.mk ("RECOMMENDATIONS:".data ++ '\n' :: "- abcdefghijk".data)) =
      ["abcdefghijk"] :=
  Trans.trans
    (claim_C5_suggestion_filter.1 ("- abcdefghijk".data) (by decide) (by decide)
      (by decide) (by decide) (by decide))
    (by decide)

/-- Counterexample to claim C9 as stated: on the empty analysis text the
code returns the single message `"No analysis available to extract
suggestions"`, not the fixed list of four generic fallback suggestions. -/
theorem claim_C9_counterexample :
    get_improvement_suggestions "" = ["No analysis available to extract suggestions"] ∧
    get_improvement_suggestions "" ≠ fallbackSuggestions := by
  decide

/-- Claim C9 (amended): for every nonempty analysis text from which the
suggestion loop extracts no qualifying list items,
`get_improvement_suggestions` returns the fixed list of four generic
fallback suggestions; the empty text instead returns the single
no-analysis message. -/
theorem claim_C9_fallback_suggestions (s : String) (hne : s.data ≠ [])
    (h : suggLoop (splitLines s.data) false = []) :
    get_improvement_suggestions s = fallbackSuggestions := by
  unfold get_improvement_suggestions
  rw [if_neg hne]
  simp [h]

/-- Witness for C9 (amended) on a nonempty text with no list items. -/
theorem claim_C9_fallback_suggestions_witness :
    get_improvement_suggestions "nothing here" = fallbackSuggestions :=
  claim_C9_fallback_suggestions "nothing here" (by decide) (by decide)

theorem joinLines_cons_cons (a b : List Char) (rest : List (List Char)) :
    joinLines (a :: b :: rest) = a ++ '\n' :: joinLines (b :: rest) := rfl

theorem split_join {ls : List (List Char)} (hnl : ∀ l ∈ ls, '\n' ∉ l)
    (hne : ls ≠ []) : splitLines (joinLines ls) = ls := by
  induction ls with
  | nil => exact absurd rfl hne
  | cons l rest ih =>
    cases rest with
    | nil => exact splitLines_no_nl (hnl l (List.mem_cons_self l []))
    | cons l₂ rest' =>
      rw [joinLines_cons_cons,
        splitLines_append_nl _ (hnl l (List.mem_cons_self l _)),
        ih (fun x hx => hnl x (List.mem_cons_of_mem l hx)) (by simp)]

theorem exLoop_pass (n : List Char) (A rest : List (List Char))
    (h : ∀ l ∈ A, headerMatch n l = false) :
    exLoop n (A ++ rest) false = exLoop n rest false := by
  induction A with
  | nil => rw [List.nil_append]
  | cons a A' ih =>
    rw [List.cons_append, exLoop,
      if_neg (by simp [h a (List.mem_cons_self a A')]),
      if_neg (by simp)]
    exact ih (fun l hl => h l (List.mem_cons_of_mem a hl))

theorem exLoop_stop (n : List Char) (G : List (List Char)) (rh : List Char)
    (R : List (List Char)) (hrh : headerMatch n rh = false)
    (hnew : isSectionBreak rh = true) :
    exLoop n (G ++ rh :: R) true = exLoop n G true := by
  induction G with
  | nil =>
    rw [List.nil_append]
    simp only [exLoop]
    rw [if_neg (by simp [hrh]), if_pos trivial, if_pos hnew]
  | cons g G' ih =>
    rw [List.cons_append]
    simp only [exLoop]
    by_cases h1 : headerMatch n g = true
    · rw [if_pos h1, if_pos h1, ih]
    · rw [if_neg h1, if_neg h1, if_pos trivial, if_pos trivial]
      by_cases h2 : isSectionBreak g = true
      · rw [if_pos h2, if_pos h2]
      · rw [if_neg h2, if_neg h2]
        by_cases h3 : (!(pyStrip g).isEmpty) = true
        · rw [if_pos h3, if_pos h3, ih]
        · rw [if_neg h3, if_neg h3, ih]

/-- Claim C8: section extraction is stable under moving the (unrelated)
RECOMMENDATIONS section in front of the GAPS section.  The text is given
as newline-joined lines: a prefix `A`, the GAPS header line `gh` (which
matches the `"GAPS"` header test), its body `G`, the RECOMMENDATIONS
header line `rh` (a new top-level section line not matching the GAPS
header test), and its body `R` (none of which matches the GAPS header
test, and no line of the analysis matching it before `gh`).  Extracting
`"GAPS"` yields the same text whether the RECOMMENDATIONS section follows
the GAPS section or precedes it. -/
theorem claim_C8_section_reorder (A G R : List (List Char)) (gh rh : List Char)
    (hnl : ∀ l ∈ A ++ gh :: (G ++ rh :: R), '\n' ∉ l)
    (hgh : headerMatch (lineLower "GAPS".data) gh = true)
    (hA : ∀ l ∈ A, headerMatch (lineLower "GAPS".data) l = false)
    (hrh : headerMatch (lineLower "GAPS".data) rh = false)
    (hR : ∀ l ∈ R, headerMatch (lineLower "GAPS".data) l = false)
    (hnew : isSectionBreak rh = true) :
    extract_section (String.mk (joinLines (A ++ gh :: (G ++ rh :: R)))) "GAPS" =
      extract_section (String.mk (joinLines (A ++ rh :: (R ++ gh :: G)))) "GAPS" := by
  have hnl' : ∀ l ∈ A ++ rh :: (R ++ gh :: G), '\n' ∉ l := by
    intro l hl
    apply hnl l
    simp only [List.mem_append, List.mem_cons] at hl ⊢
    tauto
  have hlenA : (A ++ gh :: (G ++ rh :: R)).length ≥ 2 := by
    simp
    omega
  have hlenB : (A ++ rh :: (R ++ gh :: G)).length ≥ 2 := by
    simp
    omega
  have hjA : joinLines (A ++ gh :: (G ++ rh :: R)) ≠ [] := by
    intro he
    have := split_join hnl (by intro hc; rw [hc] at hlenA; simp at hlenA)
    rw [he] at this
    have h1 : ([[]] : List (List Char)) = A ++ gh :: (G ++ rh :: R) := this
    have := congrArg List.length h1
    simp at this
    omega
  have hjB : joinLines (A ++ rh :: (R ++ gh :: G)) ≠ [] := by
    intro he
    have := split_join hnl' (by intro hc; rw [hc] at hlenB; simp at hlenB)
    rw [he] at this
    have h1 : ([[]] : List (List Char)) = A ++ rh :: (R ++ gh :: G) := this
    have := congrArg List.length h1
    simp at this
    omega
  have hloopA : exLoop (lineLower "GAPS".data) (A ++ gh :: (G ++ rh :: R)) false =
      exLoop (lineLower "GAPS".data) G true := by
    rw [exLoop_pass _ A _ hA, exLoop, if_pos hgh, exLoop_stop _ G rh R hrh hnew]
  have hloopB : exLoop (lineLower "GAPS".data) (A ++ rh :: (R ++ gh :: G)) false =
      exLoop (lineLower "GAPS".data) G true := by
    have hA' : ∀ l ∈ A ++ rh :: R, headerMatch (lineLower "GAPS".data) l = false := by
      intro l hl
      simp only [List.mem_append, List.mem_cons] at hl
      rcases hl with h | h | h
      · exact hA l h
      · rw [h]; exact hrh
      · exact hR l h
    have hshape : A ++ rh :: (R ++ gh :: G) = (A ++ rh :: R) ++ gh :: G := by
      simp
    rw [hshape, exLoop_pass _ (A ++ rh :: R) _ hA', exLoop, if_pos hgh]
  unfold extract_section
  rw [String_mk_data, String_mk_data, if_neg hjA, if_neg hjB,
    split_join hnl (by intro hc; rw [hc] at hlenA; simp at hlenA),
    split_join hnl' (by intro hc; rw [hc] at hlenB; simp at hlenB),
    hloopA, hloopB]

/-- Witness for C8 at a concrete four-section analysis. -/
theorem claim_C8_section_reorder_witness :
    extract_section (String.mk (joinLines (["1. OVERALL MATCH: 80%".data] ++
        "3. GAPS:".data :: (["- missing skill".data] ++
          "4. RECOMMENDATIONS:".data :: ["- do this".data])))) "GAPS" =
      extract_section (String.mk (joinLines (["1. OVERALL MATCH: 80%".data] ++
        "4. RECOMMENDATIONS:".data :: (["- do this".data] ++
          "3. GAPS:".data :: ["- missing skill".data])))) "GAPS" :=
  claim_C8_section_reorder ["1. OVERALL MATCH: 80%".data] ["- missing skill".data]
    ["- do this".data] ("3. GAPS:".data) ("4. RECOMMENDATIONS:".data)
    (by decide) (by decide) (by decide) (by decide) (by decide) (by decide)

/-- No two consecutive space characters (the normal form produced by
`collapseSp`). -/
def NoDD (l : List Char) : Prop := l.Chain' (fun a b => ¬(a = ' ' ∧ b = ' '))

theorem dropWhile_head_not (p : Char → Bool) (l : List Char) :
    ∀ c, (l.dropWhile p).head? = some c → p c = false := by
  induction l with
  | nil => intro c h; simp [List.dropWhile] at h
  | cons a t ih =>
    intro c h
    rw [List.dropWhile_cons] at h
    by_cases hp : p a = true
    · rw [if_pos hp] at h
      exact ih c h
    · rw [if_neg hp] at h
      simp only [List.head?_cons, Option.some.injEq] at h
      subst h
      simpa using hp

theorem mem_of_mem_dropWhile (p : Char → Bool) {l : List Char} {c : Char}
    (h : c ∈ l.dropWhile p) : c ∈ l := by
  induction l with
  | nil => simp [List.dropWhile] at h
  | cons a t ih =>
    rw [List.dropWhile_cons] at h
    by_cases hp : p a = true
    · rw [if_pos hp] at h
      exact List.mem_cons_of_mem a (ih h)
    · rwa [if_neg hp] at h

theorem Chain'_dropWhile {R : Char → Char → Prop} (p : Char → Bool)
    {l : List Char} (h : l.Chain' R) : (l.dropWhile p).Chain' R := by
  induction l with
  | nil => exact h
  | cons a t ih =>
    rw [List.dropWhile_cons]
    by_cases hp : p a = true
    · rw [if_pos hp]
      exact ih (List.chain'_cons'.mp h).2
    · rwa [if_neg hp]

theorem dropWhile_eq_self_of_head (p : Char → Bool) {l : List Char}
    (h : ∀ c, l.head? = some c → p c = false) : l.dropWhile p = l := by
  cases l with
  | nil => rfl
  | cons a t =>
    rw [List.dropWhile_cons, if_neg (by simp [h a rfl])]

theorem stripEnd_head? (l : List Char) :
    (stripEnd l).head? = l.head? ∨ stripEnd l = [] := by
  induction l with
  | nil => exact Or.inr rfl
  | cons a t ih =>
    simp only [stripEnd]
    cases h : stripEnd t with
    | nil =>
      by_cases hp : pySpace a = true
      · rw [if_pos hp]
        exact Or.inr rfl
      · rw [if_neg hp]
        exact Or.inl rfl
    | cons d r => exact Or.inl rfl

theorem stripEnd_getLast (l : List Char) :
    ∀ c, (stripEnd l).getLast? = some c → pySpace c = false := by
  induction l with
  | nil => intro c h; simp [stripEnd] at h
  | cons a t ih =>
    intro c h
    simp only [stripEnd] at h
    cases he : stripEnd t with
    | nil =>
      rw [he] at h
      by_cases hp : pySpace a = true
      · rw [if_pos hp] at h
        simp at h
      · rw [if_neg hp] at h
        simp only [List.getLast?_singleton, Option.some.injEq] at h
        subst h
        simpa using hp
    | cons d r =>
      rw [he] at h
      rw [List.getLast?_cons_cons] at h
      exact ih c (he ▸ h)

theorem stripEnd_chain' {R : Char → Char → Prop} {l : List Char}
    (h : l.Chain' R) : (stripEnd l).Chain' R := by
  induction l with
  | nil => simpa using h
  | cons a t ih =>
    have hh := (List.chain'_cons'.mp h).1
    have ht := (List.chain'_cons'.mp h).2
    simp only [stripEnd]
    cases he : stripEnd t with
    | nil =>
      by_cases hp : pySpace a = true
      · rw [if_pos hp]
        exact List.chain'_nil
      · rw [if_neg hp]
        exact List.chain'_singleton a
    | cons d r =>
      apply List.chain'_cons'.mpr
      refine ⟨?_, he ▸ ih ht⟩
      intro y hy
      simp only [List.head?_cons, Option.mem_def, Option.some.injEq] at hy
      subst hy
      apply hh
      rcases stripEnd_head? t with hcase | hcase
      · rw [he] at hcase
        simp only [List.head?_cons] at hcase
        exact Option.mem_def.mpr hcase.symm
      · rw [hcase] at he
        simp at he

theorem stripEnd_mem {l : List Char} {c : Char} (h : c ∈ stripEnd l) : c ∈ l := by
  induction l with
  | nil => simp [stripEnd] at h
  | cons a t ih =>
    simp only [stripEnd] at h
    cases he : stripEnd t with
    | nil =>
      rw [he] at h
      by_cases hp : pySpace a = true
      · rw [if_pos hp] at h
        simp at h
      · rw [if_neg hp] at h
        simp only [List.mem_singleton] at h
        rw [h]
        exact List.mem_cons_self _ _
    | cons d r =>
      rw [he] at h
      rcases List.mem_cons.mp h with h | h
      · rw [h]
        exact List.mem_cons_self _ _
      · exact List.mem_cons_of_mem a (ih (he ▸ h))

theorem stripEnd_fix {l : List Char}
    (h : ∀ c, l.getLast? = some c → pySpace c = false) : stripEnd l = l := by
  induction l with
  | nil => rfl
  | cons a t ih =>
    cases t with
    | nil =>
      simp only [stripEnd]
      rw [if_neg (by simp [h a rfl])]
    | cons b r =>
      have ht : stripEnd (b :: r) = b :: r :=
        ih (fun c hc => h c (by rwa [List.getLast?_cons_cons]))
      rw [stripEnd, ht]

theorem pyStrip_head (l : List Char) :
    ∀ c, (pyStrip l).head? = some c → pySpace c = false := by
  intro c h
  unfold pyStrip at h
  rcases stripEnd_head? (l.dropWhile pySpace) with hc | hc
  · rw [hc] at h
    exact dropWhile_head_not pySpace l c h
  · rw [hc] at h
    simp at h

theorem pyStrip_getLast (l : List Char) :
    ∀ c, (pyStrip l).getLast? = some c → pySpace c = false :=
  fun c h => stripEnd_getLast (l.dropWhile pySpace) c h

theorem pyStrip_chain' {R : Char → Char → Prop} {l : List Char}
    (h : l.Chain' R) : (pyStrip l).Chain' R :=
  stripEnd_chain' (Chain'_dropWhile pySpace h)

theorem pyStrip_mem {l : List Char} {c : Char} (h : c ∈ pyStrip l) : c ∈ l :=
  mem_of_mem_dropWhile pySpace (stripEnd_mem h)

theorem pyStrip_fix {l : List Char}
    (h1 : ∀ c, l.head? = some c → pySpace c = false)
    (h2 : ∀ c, l.getLast? = some c → pySpace c = false) : pyStrip l = l := by
  unfold pyStrip
  rw [dropWhile_eq_self_of_head pySpace h1]
  exact stripEnd_fix h2

theorem collapseSp_head? (l : List Char) : (collapseSp l).head? = l.head? := by
  induction l with
  | nil => rfl
  | cons a t ih =>
    cases t with
    | nil => rfl
    | cons b r =>
      simp only [collapseSp]
      by_cases h : (a == ' ' && b == ' ') = true
      · rw [if_pos h, ih]
        obtain ⟨ha, hb⟩ : a = ' ' ∧ b = ' ' := by simpa using h
        simp [List.head?_cons, ha, hb]
      · rw [if_neg h]
        simp [List.head?_cons]

theorem collapseSp_noDD (l : List Char) : NoDD (collapseSp l) := by
  induction l with
  | nil => exact List.chain'_nil
  | cons a t ih =>
    cases t with
    | nil => exact List.chain'_singleton a
    | cons b r =>
      simp only [collapseSp]
      by_cases h : (a == ' ' && b == ' ') = true
      · rw [if_pos h]
        exact ih
      · rw [if_neg h]
        apply List.chain'_cons'.mpr
        refine ⟨?_, ih⟩
        intro y hy
        rw [collapseSp_head? (b :: r)] at hy
        simp only [List.head?_cons, Option.mem_def, Option.some.injEq] at hy
        subst hy
        intro hc
        exact h (by simp [hc.1, hc.2])

theorem collapseSp_mem {l : List Char} {c : Char} (h : c ∈ collapseSp l) : c ∈ l := by
  induction l with
  | nil => simp [collapseSp] at h
  | cons a t ih =>
    cases t with
    | nil => exact h
    | cons b r =>
      simp only [collapseSp] at h
      by_cases hc : (a == ' ' && b == ' ') = true
      · rw [if_pos hc] at h
        exact List.mem_cons_of_mem a (ih h)
      · rw [if_neg hc] at h
        rcases List.mem_cons.mp h with h | h
        · rw [h]
          exact List.mem_cons_self _ _
        · exact List.mem_cons_of_mem a (ih h)

theorem collapseSp_fix {l : List Char} (h : NoDD l) : collapseSp l = l := by
  induction l with
  | nil => rfl
  | cons a t ih =>
    cases t with
    | nil => rfl
    | cons b r =>
      obtain ⟨hab, ht⟩ := List.chain'_cons.mp h
      simp only [collapseSp]
      rw [if_neg (by intro hc; exact hab (by simpa using hc)), ih ht]

theorem collapseWs_ws (l : List Char) :
    ∀ c ∈ collapseWs l, pySpace c = true → c = ' ' := by
  induction l with
  | nil => intro c hc; simp [collapseWs] at hc
  | cons a t ih =>
    cases t with
    | nil =>
      intro c hc hp
      simp only [collapseWs] at hc
      by_cases hpa : pySpace a = true
      · rw [if_pos hpa] at hc
        simpa using hc
      · rw [if_neg hpa] at hc
        simp only [List.mem_singleton] at hc
        rw [hc] at hp
        exact absurd hp hpa
    | cons b r =>
      intro c hc hp
      simp only [collapseWs] at hc
      by_cases h : (pySpace a && pySpace b) = true
      · rw [if_pos h] at hc
        exact ih c hc hp
      · rw [if_neg h] at hc
        rcases List.mem_cons.mp hc with hc | hc
        · by_cases hpa : pySpace a = true
          · rwa [if_pos hpa] at hc
          · rw [if_neg hpa] at hc
            rw [hc] at hp
            exact absurd hp hpa
        · exact ih c hc hp

theorem collapseWs_fix {l : List Char}
    (hmem : ∀ c ∈ l, pySpace c = true → c = ' ') (hnodd : NoDD l) :
    collapseWs l = l := by
  induction l with
  | nil => rfl
  | cons a t ih =>
    cases t with
    | nil =>
      simp only [collapseWs]
      by_cases hpa : pySpace a = true
      · rw [if_pos hpa, hmem a (List.mem_cons_self _ _) hpa]
      · rw [if_neg hpa]
    | cons b r =>
      obtain ⟨hab, ht⟩ := List.chain'_cons.mp hnodd
      simp only [collapseWs]
      by_cases h : (pySpace a && pySpace b) = true
      · exfalso
        have hcond : pySpace a = true ∧ pySpace b = true := by simpa using h
        exact hab ⟨hmem a (List.mem_cons_self _ _) hcond.1,
          hmem b (List.mem_cons_of_mem a (List.mem_cons_self _ _)) hcond.2⟩
      · rw [if_neg h]
        have htail : ∀ c ∈ b :: r, pySpace c = true → c = ' ' :=
          fun c hc => hmem c (List.mem_cons_of_mem a hc)
        rw [ih htail ht]
        by_cases hpa : pySpace a = true
        · rw [if_pos hpa, hmem a (List.mem_cons_self _ _) hpa]
        · rw [if_neg hpa]

theorem clean_idem_core (x : List Char) :
    clean_text_chars (pyStrip (collapseSp ((collapseWs x).filter keepChar))) =
      pyStrip (collapseSp ((collapseWs x).filter keepChar)) := by
  set m := pyStrip (collapseSp ((collapseWs x).filter keepChar)) with hm
  by_cases hm0 : m = []
  · rw [hm0]
    rfl
  · have hmemA : ∀ c ∈ m, c ∈ (collapseWs x).filter keepChar := by
      intro c hc
      exact collapseSp_mem (pyStrip_mem hc)
    have hA1 : ∀ c ∈ m, pySpace c = true → c = ' ' := by
      intro c hc hp
      exact collapseWs_ws x c (List.mem_of_mem_filter (hmemA c hc)) hp
    have hA2 : ∀ c ∈ m, keepChar c = true := by
      intro c hc
      exact List.of_mem_filter (hmemA c hc)
    have hA3 : NoDD m := pyStrip_chain' (collapseSp_noDD _)
    have hH : ∀ c, m.head? = some c → pySpace c = false :=
      pyStrip_head (collapseSp ((collapseWs x).filter keepChar))
    have hL : ∀ c, m.getLast? = some c → pySpace c = false :=
      pyStrip_getLast (collapseSp ((collapseWs x).filter keepChar))
    rw [clean_text_chars, if_neg hm0, collapseWs_fix hA1 hA3,
      List.filter_eq_self.mpr hA2, collapseSp_fix hA3, pyStrip_fix hH hL]

theorem clean_text_chars_idem (l : List Char) :
    clean_text_chars (clean_text_chars l) = clean_text_chars l := by
  by_cases hl : l = []
  · rw [hl]
    rfl
  · have hdef : clean_text_chars l =
        pyStrip (collapseSp ((collapseWs l).filter keepChar)) := by
      rw [clean_text_chars, if_neg hl]
    rw [hdef]
    exact clean_idem_core l

/-- Claim C3: text normalization is idempotent — applying `clean_text`
twice gives the same result as applying it once, for every input. -/
theorem claim_C3_clean_text_idem (s : String) :
    clean_text (clean_text s) = clean_text s := by
  unfold clean_text
  rw [String_mk_data]
  exact congrArg String.mk (clean_text_chars_idem s.data)
